import Mathlib

/-!
Shallow embedding of the roster validation and legacy-consistency logic of the
roco-kingdom-team-builder frontend: the zustand builder store
(`builderStore.ts`, given as `src/unnamed/part_001`), the per-slot validator
and submit gating of `BuilderPage.tsx`, and the inspector component logic of
`MonsterInspector.tsx` (given as `src/unnamed/part_002`): talent-cap
enforcement (`setTalent`), legacy-move consistency (`handleLegacyChange`,
`extractLegacyInfo`), and move picking (`candidates`, `canPick`, `onPick`).
Identifiers are natural numbers with 0 as the unset sentinel, mirroring the
`ID = number` and falsy-zero conventions of the source.
-/

namespace RocoTeamBuilder

/-- The `TalentUpsert` shape of `types.ts`: six per-stat integer boosts. -/
structure TalentUpsert where
  hp_boost : Nat
  phy_atk_boost : Nat
  mag_atk_boost : Nat
  phy_def_boost : Nat
  mag_def_boost : Nat
  spd_boost : Nat
  deriving Repr, DecidableEq

/-- The `emptyTalent` constant of the builder store. -/
def emptyTalent : TalentUpsert :=
  { hp_boost := 0, phy_atk_boost := 0, mag_atk_boost := 0
    phy_def_boost := 0, mag_def_boost := 0, spd_boost := 0 }

/-- The slot type of the builder store: `UserMonsterCreate & { id?: ID }`.
All identifier fields use 0 as the unset sentinel; `id` is the persisted
row id of a saved user-monster, absent (`none`) for fresh slots. -/
structure UserMonsterCreate where
  id : Option Nat
  monster_id : Nat
  personality_id : Nat
  legacy_type_id : Nat
  move1_id : Nat
  move2_id : Nat
  move3_id : Nat
  move4_id : Nat
  talent : TalentUpsert
  deriving Repr, DecidableEq

/-- The `emptySlot()` constructor of the builder store. -/
def emptySlot : UserMonsterCreate :=
  { id := none, monster_id := 0, personality_id := 0, legacy_type_id := 0
    move1_id := 0, move2_id := 0, move3_id := 0, move4_id := 0
    talent := emptyTalent }

/-- A `PartialNoUndef<UserMonsterCreate & { id?: ID }>` patch: each field is
either absent (`none`, i.e. the key is missing or `undefined`) or present with
a definite value. -/
structure SlotPatch where
  id : Option Nat := none
  monster_id : Option Nat := none
  personality_id : Option Nat := none
  legacy_type_id : Option Nat := none
  move1_id : Option Nat := none
  move2_id : Option Nat := none
  move3_id : Option Nat := none
  move4_id : Option Nat := none
  talent : Option TalentUpsert := none
  deriving Repr, DecidableEq

/-- The store helper `mergeWithoutUndef(base, patch)`: keys whose patch value
is `undefined` are skipped, every other key overwrites the base field. -/
def mergeWithoutUndef (base : UserMonsterCreate) (patch : SlotPatch) : UserMonsterCreate :=
  { id := match patch.id with | some v => some v | none => base.id
    monster_id := patch.monster_id.getD base.monster_id
    personality_id := patch.personality_id.getD base.personality_id
    legacy_type_id := patch.legacy_type_id.getD base.legacy_type_id
    move1_id := patch.move1_id.getD base.move1_id
    move2_id := patch.move2_id.getD base.move2_id
    move3_id := patch.move3_id.getD base.move3_id
    move4_id := patch.move4_id.getD base.move4_id
    talent := patch.talent.getD base.talent }

/-- The state carried by `useBuilderStore` (functions omitted). The analysis
payload is opaque to every claim, so it is tracked as an optional tag. -/
structure BuilderState where
  teamId : Option Nat
  name : String
  magic_item_id : Option Nat
  slots : List UserMonsterCreate
  analysis : Option Nat
  isAnalyzing : Bool
  deriving Repr, DecidableEq

/-- The initial store state: `slots: Array.from({ length: 6 }, emptySlot)`. -/
def initState : BuilderState :=
  { teamId := none, name := "", magic_item_id := none
    slots := List.replicate 6 emptySlot
    analysis := none, isAnalyzing := false }

/-- The store mutation `setSlot(idx, patch)`: copies the slot array, merges the
patch into `slots[idx] ?? emptySlot()` and writes it back.  The claims only use
in-range indices 0..5, where the JavaScript element assignment coincides with
`List.set`. -/
def setSlot (s : BuilderState) (idx : Nat) (patch : SlotPatch) : BuilderState :=
  { s with slots := s.slots.set idx (mergeWithoutUndef (s.slots.getD idx emptySlot) patch) }

/-- One saved user-monster record inside a `TeamOut`, flattened to the id
fields `loadFromTeam` actually reads (`um.monster.id`, `um.personality.id`,
`um.legacy_type.id`, `um.moveN.id`, the talent record, and `um.id`). -/
structure UserMonsterOut where
  id : Nat
  monster_id : Nat
  personality_id : Nat
  legacy_type_id : Nat
  move1_id : Nat
  move2_id : Nat
  move3_id : Nat
  move4_id : Nat
  talent : TalentUpsert
  deriving Repr, DecidableEq

/-- A saved team record, reduced to the fields `loadFromTeam` reads:
`team.id`, `team.name` (nullable), `team.magic_item?.id` and
`team.user_monsters` (nullable list). -/
structure TeamOut where
  id : Nat
  name : Option String
  magic_item : Option Nat
  user_monsters : Option (List UserMonsterOut)
  deriving Repr, DecidableEq

/-- The per-record mapping done inside `loadFromTeam`: each saved record is
copied field-for-field into a builder slot. -/
def loadSlot (um : UserMonsterOut) : UserMonsterCreate :=
  { id := some um.id
    monster_id := um.monster_id
    personality_id := um.personality_id
    legacy_type_id := um.legacy_type_id
    move1_id := um.move1_id, move2_id := um.move2_id
    move3_id := um.move3_id, move4_id := um.move4_id
    talent := um.talent }

/-- The store action `loadFromTeam(team)`: takes at most 6 saved records in
order, maps each through `loadSlot`, pads with `emptySlot()` up to length 6
(the `while (slots.length < 6) slots.push(emptySlot())` loop), and replaces
the team-level fields.  `analysis` and `isAnalyzing` are not touched. -/
def loadFromTeam (s : BuilderState) (team : TeamOut) : BuilderState :=
  let slots0 := ((team.user_monsters.getD []).take 6).map loadSlot
  { s with teamId := some team.id
           name := team.name.getD "My Team"
           magic_item_id := team.magic_item
           slots := slots0 ++ List.replicate (6 - slots0.length) emptySlot }

/-- The store action `reset()`. -/
def reset (_s : BuilderState) : BuilderState :=
  { teamId := none, name := "", magic_item_id := none
    slots := List.replicate 6 emptySlot
    analysis := none, isAnalyzing := false }

/-- Modelled from the spec: the builder store action `moveSlot(fromIndex,
toIndex)` is destructured and called by `BuilderPage.handleDragEnd`, but the
store file shipped in the sources does not contain its implementation.  Spec
section 4.4: swaps the two slots entire contents, with no validation beyond
bounds-checking both indices against 0..5; a swap with equal indices is a
no-op. -/
def moveSlot (s : BuilderState) (fromIdx toIdx : Nat) : BuilderState :=
  if fromIdx < 6 ∧ toIdx < 6 then
    let swapped := (s.slots.set fromIdx (s.slots.getD toIdx emptySlot)).set toIdx (s.slots.getD fromIdx emptySlot)
    { s with slots := swapped }
  else s

/-- The `zeroTalent` constant of `BuilderPage.tsx`. -/
def zeroTalent : TalentUpsert :=
  { hp_boost := 0, phy_atk_boost := 0, mag_atk_boost := 0
    phy_def_boost := 0, mag_def_boost := 0, spd_boost := 0 }

/-- The quick-delete action of `BuilderPage.tsx` (the `onDelete` handler of a
slot card): a `setSlot` call clearing every selection field and the talents of
the slot (the persisted `id` is left untouched). -/
def clearSlot (s : BuilderState) (idx : Nat) : BuilderState :=
  setSlot s idx
    { monster_id := some 0, personality_id := some 0, legacy_type_id := some 0
      move1_id := some 0, move2_id := some 0, move3_id := some 0, move4_id := some 0
      talent := some zeroTalent }

/-! ### Validator (`BuilderPage.tsx`) -/

/-- The violation keys pushed by `validateSlot`. -/
inductive VKey where
  | v_pickMonster
  | v_setPersonality
  | v_chooseLegacy
  | v_select4Moves
  | v_pickTalent
  | v_max3
  deriving Repr, DecidableEq

/-- The helper `boostedCount(t)` of `BuilderPage.tsx`: how many of the six
boost values are strictly positive. -/
def boostedCount (t : TalentUpsert) : Nat :=
  ([t.hp_boost, t.phy_atk_boost, t.mag_atk_boost,
    t.phy_def_boost, t.mag_def_boost, t.spd_boost].filter (fun v => 0 < v)).length

/-- The pure validator `validateSlot(slot)` of `BuilderPage.tsx`: pushes the
violation keys in the fixed source order.  Falsy id checks (`!slot.x`) become
equality with the 0 sentinel. -/
def validateSlot (slot : UserMonsterCreate) : List VKey :=
  (if slot.monster_id = 0 then [VKey.v_pickMonster] else []) ++
  (if slot.personality_id = 0 then [VKey.v_setPersonality] else []) ++
  (if slot.legacy_type_id = 0 then [VKey.v_chooseLegacy] else []) ++
  (if [slot.move1_id, slot.move2_id, slot.move3_id, slot.move4_id].any (fun m => m == 0)
     then [VKey.v_select4Moves] else []) ++
  (if boostedCount slot.talent = 0 then [VKey.v_pickTalent] else []) ++
  (if boostedCount slot.talent > 3 then [VKey.v_max3] else [])

/-- JavaScript truthiness of a nullable numeric id (`!!x`). -/
def jsTruthy : Option Nat → Bool
  | none => false
  | some n => n != 0

/-- The submit gate of `BuilderPage.tsx`:
`canAnalyze = allErrors.every((list) => list.length === 0) && !!magic_item_id`,
with `allErrors = slots.map(validateSlot)`. -/
def canAnalyze (s : BuilderState) : Bool :=
  ((s.slots.map validateSlot).all (fun l => l.length == 0)) && jsTruthy s.magic_item_id

/-! ### TalentsSection (`MonsterInspector.tsx`) -/

/-- The six talent stat keys, as listed in the `KEYS` array of
`TalentsSection`. -/
inductive TalentKey where
  | hp_boost
  | phy_atk_boost
  | mag_atk_boost
  | phy_def_boost
  | mag_def_boost
  | spd_boost
  deriving Repr, DecidableEq

/-- Field read `tal[k]` for a talent record. -/
def getBoost (t : TalentUpsert) : TalentKey → Nat
  | .hp_boost => t.hp_boost
  | .phy_atk_boost => t.phy_atk_boost
  | .mag_atk_boost => t.mag_atk_boost
  | .phy_def_boost => t.phy_def_boost
  | .mag_def_boost => t.mag_def_boost
  | .spd_boost => t.spd_boost

/-- Field write `tal[k] = v` on a copy of the talent record. -/
def setBoost (t : TalentUpsert) (k : TalentKey) (v : Nat) : TalentUpsert :=
  match k with
  | .hp_boost => { t with hp_boost := v }
  | .phy_atk_boost => { t with phy_atk_boost := v }
  | .mag_atk_boost => { t with mag_atk_boost := v }
  | .phy_def_boost => { t with phy_def_boost := v }
  | .mag_def_boost => { t with mag_def_boost := v }
  | .spd_boost => { t with spd_boost := v }

/-- The `KEYS` array of `TalentsSection`, in source order. -/
def KEYS : List TalentKey :=
  [.hp_boost, .phy_atk_boost, .mag_atk_boost, .phy_def_boost, .mag_def_boost, .spd_boost]

/-- The `setTalent(k, v)` handler of `TalentsSection`, composed with the store
update it triggers: copy the talent, write the key, count the boosted keys of
the proposed record, and either reject (alert, state unchanged) when more than
3 keys are boosted, or commit `onChange({ talent: tal })`, which is
`setSlot(idx, { talent: tal })`. -/
def setTalentOp (s : BuilderState) (idx : Nat) (k : TalentKey) (v : Nat) : BuilderState :=
  let slot := s.slots.getD idx emptySlot
  let tal := setBoost slot.talent k v
  let boosted := (KEYS.filter (fun k2 => 0 < getBoost tal k2)).length
  if boosted > 3 then s
  else setSlot s idx { talent := some tal }

/-! ### Legacy maps (`extractLegacyInfo`, `useLegacyMap`)

A creature legacy-move map is an insertion-ordered association list of
(elemental type id, granted move id) pairs; the JavaScript `Map` has unique
keys and `Map.get` returns the value of the matching key, modelled by
first-match lookup.  The global legacy-move id set is a duplicate-free list. -/

/-- `Map.get(k)` on an association list. -/
def mapGet (m : List (Nat × Nat)) (k : Nat) : Option Nat :=
  (m.find? (fun p => p.1 == k)).map (fun p => p.2)

/-- `Map.set(k, v)` on an association list: overwrite the existing key or
append a new entry, preserving insertion order. -/
def mapSet (m : List (Nat × Nat)) (k v : Nat) : List (Nat × Nat) :=
  if m.any (fun p => p.1 == k) then m.map (fun p => if p.1 == k then (k, v) else p)
  else m ++ [(k, v)]

/-- `Set.add(x)` on a duplicate-free list. -/
def setAdd (l : List Nat) (x : Nat) : List Nat :=
  if l.contains x then l else l ++ [x]

/-- The `extractLegacyInfo(detail)` helper of `MonsterInspector.tsx`
(object-entries branch): each raw entry is a type id and an optional move id;
entries with a falsy type id or a missing move id are skipped, the rest feed
`byType` (a map) and `idSet` (a set). -/
def extractLegacyInfo (entries : List (Nat × Option Nat)) : List (Nat × Nat) × List Nat :=
  entries.foldl
    (fun acc e =>
      if e.1 ≠ 0 then
        match e.2 with
        | some mv => (mapSet acc.1 e.1 mv, setAdd acc.2 mv)
        | none => acc
      else acc)
    ([], [])

/-! ### Legacy type change (`LegacyTypeSection` + `handleLegacyChange`) -/

/-- The stale-legacy-move test inside `handleLegacyChange`: the move slot is
occupied, its move is in the global legacy set, and it differs from the move
the new type grants.  In the source the granted id is `allowedMoveId ?? -1`;
the -1 sentinel never equals a move id, so an absent granted move clears every
selected legacy move. -/
def shouldClear (idSet : List Nat) (allowed : Option Nat) (current : Nat) : Bool :=
  match allowed with
  | some a => current != 0 && idSet.contains current && current != a
  | none => current != 0 && idSet.contains current

/-- The patch built by `handleLegacyChange(newTypeId)`: each of the four move
slots holding a stale legacy move is cleared to 0; other keys are absent. -/
def handleLegacyChange (byType : List (Nat × Nat)) (idSet : List Nat)
    (slot : UserMonsterCreate) (newTypeId : Nat) : SlotPatch :=
  let allowed := mapGet byType newTypeId
  { move1_id := if shouldClear idSet allowed slot.move1_id then some 0 else none
    move2_id := if shouldClear idSet allowed slot.move2_id then some 0 else none
    move3_id := if shouldClear idSet allowed slot.move3_id then some 0 else none
    move4_id := if shouldClear idSet allowed slot.move4_id then some 0 else none }

/-- The full legacy-type-select operation: the `CustomSelect` change handler of
`LegacyTypeSection` runs `onChange({ legacy_type_id: id })` and then
`onLegacyChange(id)`, i.e. `handleLegacyChange`, which applies its clearing
patch only when it is non-empty.  Both patches read the pre-change slot. -/
def legacyTypeSelect (byType : List (Nat × Nat)) (idSet : List Nat)
    (slot : UserMonsterCreate) (newTypeId : Nat) : UserMonsterCreate :=
  let slot1 := mergeWithoutUndef slot { legacy_type_id := some newTypeId }
  let patch := handleLegacyChange byType idSet slot newTypeId
  if patch.move1_id.isNone && patch.move2_id.isNone
      && patch.move3_id.isNone && patch.move4_id.isNone then slot1
  else mergeWithoutUndef slot1 patch

/-! ### MovesSection (`canPick`, `onPick`) -/

/-- Readable access to the four move fields by position 0..3 (source positions
1..4 through the `moveKeys` table). -/
def getMove (slot : UserMonsterCreate) (n : Fin 4) : Nat :=
  if n.val = 0 then slot.move1_id
  else if n.val = 1 then slot.move2_id
  else if n.val = 2 then slot.move3_id
  else slot.move4_id

/-- The patch `{ [moveKeys[n]]: id }`. -/
def movePatch (n : Fin 4) (moveId : Nat) : SlotPatch :=
  if n.val = 0 then { move1_id := some moveId }
  else if n.val = 1 then { move2_id := some moveId }
  else if n.val = 2 then { move3_id := some moveId }
  else { move4_id := some moveId }

/-- The combined patch `{ legacy_type_id: newTypeId, [moveKeys[n]]: id }` of
the legacy-inference branch of `onPick`. -/
def legacyPickPatch (n : Fin 4) (moveId newTypeId : Nat) : SlotPatch :=
  { movePatch n moveId with legacy_type_id := some newTypeId }

/-- `setNth(n, id)` of `MovesSection`: `onChange({ [moveKeys[n]]: id })`. -/
def setNth (slot : UserMonsterCreate) (n : Fin 4) (moveId : Nat) : UserMonsterCreate :=
  mergeWithoutUndef slot (movePatch n moveId)

/-- `selectedIds` of `MovesSection`: the four current move ids filtered by
truthiness. -/
def selectedIds (slot : UserMonsterCreate) : List Nat :=
  [slot.move1_id, slot.move2_id, slot.move3_id, slot.move4_id].filter (fun m => m != 0)

/-- `legacyIdSet` of `MovesSection`: the ids of `allLegacyMoves`, i.e. the
values of the legacy map in insertion order. -/
def legacyIdSet (legacyMap : List (Nat × Nat)) : List Nat :=
  legacyMap.map (fun p => p.2)

/-- The `candidates` list of `MovesSection`, with moves reduced to their ids:
the move pool (non-legacy), with the single granted legacy move unshifted in
front when a legacy type is chosen, or all legacy moves unshifted in front
when none is chosen (the loaded, non-`legacyLoading` state). -/
def candidates (movePool : List Nat) (legacyMap : List (Nat × Nat))
    (legacyTypeId : Nat) : List (Nat × Bool) :=
  let base := movePool.map (fun m => (m, false))
  if legacyTypeId ≠ 0 then
    match mapGet legacyMap legacyTypeId with
    | some a => (a, true) :: base
    | none => base
  else (legacyMap.map (fun p => (p.2, true))) ++ base

/-- The `canPick(n, move, isLegacy)` predicate of `MovesSection`: a move
occupying a different slot is not pickable; a legacy move is not pickable when
a different legacy move is already selected. -/
def canPick (legacyMap : List (Nat × Nat)) (slot : UserMonsterCreate)
    (n : Fin 4) (moveId : Nat) (isLegacy : Bool) : Bool :=
  let currentId := getMove slot n
  if moveId != currentId && (selectedIds slot).contains moveId then false
  else if !isLegacy then true
  else
    let selectedLegacyIds := (selectedIds slot).filter (fun i => (legacyIdSet legacyMap).contains i)
    let alreadyHasLegacy :=
      decide (0 < selectedLegacyIds.length)
        && !(selectedLegacyIds.length == 1 && selectedLegacyIds.headD 0 == currentId)
    if alreadyHasLegacy then false else true

/-- The `onPick(n, opt)` handler of `MovesSection`: an empty pick clears the
move slot; an id not among the candidates is set directly; picking a legacy
candidate while the legacy type is unset infers the granting type by reverse
lookup (first matching map entry) and, when that type id is truthy, commits
type and move in one patch; every other case sets the move slot directly. -/
def onPick (movePool : List Nat) (legacyMap : List (Nat × Nat))
    (slot : UserMonsterCreate) (n : Fin 4) (moveId : Nat) : UserMonsterCreate :=
  if moveId = 0 then setNth slot n 0
  else
    match (candidates movePool legacyMap slot.legacy_type_id).find? (fun c => c.1 == moveId) with
    | none => setNth slot n moveId
    | some c =>
      if c.2 && slot.legacy_type_id == 0 then
        match (legacyMap.find? (fun p => p.2 == moveId)).map (fun p => p.1) with
        | some t =>
          if t ≠ 0 then mergeWithoutUndef slot (legacyPickPatch n moveId t)
          else setNth slot n moveId
        | none => setNth slot n moveId
      else setNth slot n moveId

/-- The pick path as the user reaches it: the option rendered for a candidate
is disabled when `canPick` is false, and `CustomSelect` ignores clicks on
disabled options, so a disabled pick leaves the state untouched. -/
def uiPick (movePool : List Nat) (legacyMap : List (Nat × Nat))
    (slot : UserMonsterCreate) (n : Fin 4) (moveId : Nat) (isLegacy : Bool) : UserMonsterCreate :=
  if canPick legacyMap slot n moveId isLegacy then onPick movePool legacyMap slot n moveId
  else slot

/-- No two of the four move slots hold the same move while set: the
no-duplicate invariant of the spec. -/
def noDupMoves (slot : UserMonsterCreate) : Prop :=
  ∀ i j : Fin 4, i ≠ j → getMove slot i ≠ 0 → getMove slot i ≠ getMove slot j

instance (slot : UserMonsterCreate) : Decidable (noDupMoves slot) := by
  unfold noDupMoves; infer_instance

/-! ### Derived notions and concrete data used by the theorems -/

/-- The fixed violation catalog, in the evaluation order of `validateSlot`. -/
def catalog : List VKey :=
  [.v_pickMonster, .v_setPersonality, .v_chooseLegacy, .v_select4Moves, .v_pickTalent, .v_max3]

/-- The condition of each violation, read off the corresponding line of
`validateSlot`. -/
def violates (slot : UserMonsterCreate) : VKey → Bool
  | .v_pickMonster => slot.monster_id == 0
  | .v_setPersonality => slot.personality_id == 0
  | .v_chooseLegacy => slot.legacy_type_id == 0
  | .v_select4Moves => [slot.move1_id, slot.move2_id, slot.move3_id, slot.move4_id].any (fun m => m == 0)
  | .v_pickTalent => boostedCount slot.talent == 0
  | .v_max3 => decide (boostedCount slot.talent > 3)

/-- The four move ids of a slot as a list, witnessing that a slot always
carries exactly 4 move positions with 0 for a missing selection. -/
def slotMoves (slot : UserMonsterCreate) : List Nat :=
  [slot.move1_id, slot.move2_id, slot.move3_id, slot.move4_id]

/-- The roster mutation operations reachable from the builder page. -/
inductive BuilderOp where
  | opSetSlot (idx : Nat) (patch : SlotPatch)
  | opClearSlot (idx : Nat)
  | opMoveSlot (fromIdx toIdx : Nat)
  | opLoadFromTeam (team : TeamOut)
  | opReset
  deriving Repr, DecidableEq

/-- Apply one mutation operation to the store state. -/
def applyOp (s : BuilderState) : BuilderOp → BuilderState
  | .opSetSlot idx patch => setSlot s idx patch
  | .opClearSlot idx => clearSlot s idx
  | .opMoveSlot f t => moveSlot s f t
  | .opLoadFromTeam team => loadFromTeam s team
  | .opReset => reset s

/-- In-range side condition of an operation: slot indices are 0..5. -/
def opInRange : BuilderOp → Prop
  | .opSetSlot idx _ => idx < 6
  | .opClearSlot idx => idx < 6
  | .opMoveSlot f t => f < 6 ∧ t < 6
  | .opLoadFromTeam _ => True
  | .opReset => True

instance (op : BuilderOp) : Decidable (opInRange op) := by
  cases op <;> simp only [opInRange] <;> infer_instance

/-- A fully built slot used by concrete witnesses. -/
def fullSlot : UserMonsterCreate :=
  { id := none, monster_id := 1, personality_id := 1, legacy_type_id := 1
    move1_id := 1, move2_id := 2, move3_id := 3, move4_id := 4
    talent := { emptyTalent with hp_boost := 7 } }

/-- A submittable store state used by concrete witnesses. -/
def fullState : BuilderState :=
  { teamId := none, name := "My Team", magic_item_id := some 1
    slots := List.replicate 6 fullSlot, analysis := none, isAnalyzing := false }

/-- A talent record with three boosted stats, mirroring the spec scenario
with boosts `{hp:0, phy_atk:10, mag_atk:10, phy_def:10, mag_def:0, spd:0}`. -/
def cappedTalent : TalentUpsert :=
  { emptyTalent with phy_atk_boost := 10, mag_atk_boost := 10, phy_def_boost := 10 }

/-- A slot whose talents sit exactly at the three-boost cap. -/
def cappedSlot : UserMonsterCreate :=
  { emptySlot with talent := cappedTalent }

/-- A store state whose slots all sit at the three-boost cap, used by the C1
witness. -/
def cappedState : BuilderState :=
  { initState with slots := List.replicate 6 cappedSlot }

/-- A concrete saved user-monster record used by witnesses. -/
def sampleUM : UserMonsterOut :=
  { id := 11, monster_id := 3, personality_id := 4, legacy_type_id := 5
    move1_id := 6, move2_id := 7, move3_id := 8, move4_id := 9
    talent := cappedTalent }

/-- A concrete saved team with two records used by witnesses. -/
def sampleTeam : TeamOut :=
  { id := 42, name := some "Saved", magic_item := some 2
    user_monsters := some [sampleUM, { sampleUM with id := 12, monster_id := 5 }] }

/-- A concrete legacy map granting move 101 for type 1 and move 102 for type
2, as in the spec scenarios. -/
def byTypeW : List (Nat × Nat) := [(1, 101), (2, 102)]

/-- The id set of `byTypeW`. -/
def idSetW : List Nat := [101, 102]

/-- A slot holding the type-1 legacy move and a non-legacy move. -/
def slotC2 : UserMonsterCreate :=
  { emptySlot with legacy_type_id := 1, move1_id := 101, move2_id := 7 }

/-- A slot holding the move granted by type 2 while its legacy type is 1. -/
def slotC2b : UserMonsterCreate :=
  { emptySlot with legacy_type_id := 1, move1_id := 102 }

/-- A slot whose first move is 5, used by the duplicate-move theorems. -/
def dupSlot : UserMonsterCreate := { emptySlot with move1_id := 5 }

/-- A store state holding `dupSlot` everywhere, used by the duplicate-move
counterexample. -/
def dupState : BuilderState := { initState with slots := List.replicate 6 dupSlot }

/-- A concrete mutation sequence used by the C7 witness. -/
def sampleOps : List BuilderOp :=
  [.opSetSlot 0 { monster_id := some 7 }, .opMoveSlot 2 5, .opClearSlot 1,
   .opLoadFromTeam sampleTeam, .opSetSlot 3 { talent := some cappedTalent }]

/-! ### Theorems -/

/-- C5: the validator returns each violation exactly when its condition holds,
in the fixed catalog order (it equals the catalog filtered by the per-key
conditions); and the scenario slot obtained from an empty roster by
`setSlot(0, { monster_id: 7 })` reports exactly the four violations
`[v_setPersonality, v_chooseLegacy, v_select4Moves, v_pickTalent]`. -/
theorem validateSlot_catalog_order_C5 :
    (∀ slot : UserMonsterCreate, validateSlot slot = catalog.filter (violates slot)) ∧
    validateSlot ((setSlot initState 0 { monster_id := some 7 }).slots.getD 0 emptySlot)
      = [VKey.v_setPersonality, VKey.v_chooseLegacy, VKey.v_select4Moves, VKey.v_pickTalent] := by
  constructor
  · intro slot
    simp only [validateSlot, catalog, List.filter_cons, List.filter_nil, violates,
      beq_iff_eq, decide_eq_true_eq]
    split_ifs <;> simp
  · decide

/-- Helper: an empty violation list forces a chosen creature. -/
theorem validateSlot_nil_monster {slot : UserMonsterCreate}
    (h : validateSlot slot = []) : slot.monster_id ≠ 0 := by
  intro hm
  simp [validateSlot, hm] at h

/-- C6: the Analyze/Save/Update gate `canAnalyze` is true exactly when every
slot present has an empty violation list and the chosen magic item id is set
(truthy); in particular it forces every slot to have a chosen creature. -/
theorem canAnalyze_iff_C6 (s : BuilderState) :
    (canAnalyze s = true ↔
      ((∀ sl ∈ s.slots, validateSlot sl = []) ∧ jsTruthy s.magic_item_id = true)) ∧
    (canAnalyze s = true → ∀ sl ∈ s.slots, sl.monster_id ≠ 0) := by
  have hiff : canAnalyze s = true ↔
      ((∀ sl ∈ s.slots, validateSlot sl = []) ∧ jsTruthy s.magic_item_id = true) := by
    simp [canAnalyze, List.all_eq_true, List.length_eq_zero]
  refine ⟨hiff, fun h sl hsl => ?_⟩
  exact validateSlot_nil_monster ((hiff.mp h).1 sl hsl)

/-- Witness for C6 at a concrete submittable state. -/
theorem canAnalyze_iff_C6_witness :
    canAnalyze fullState = true ∧ fullSlot.monster_id ≠ 0 :=
  ⟨((canAnalyze_iff_C6 fullState).1).mpr ⟨by decide, by decide⟩,
   (canAnalyze_iff_C6 fullState).2
     (((canAnalyze_iff_C6 fullState).1).mpr ⟨by decide, by decide⟩) fullSlot (by decide)⟩

/-- Helper: reading any position other than the written one through `getD` is
unchanged by `List.set`. -/
theorem getD_set_ne {α : Type} {l : List α} {i j : Nat} (h : i ≠ j) (x d : α) :
    (l.set i x).getD j d = l.getD j d := by
  simp [List.getD_eq_getElem?_getD, List.getElem?_set_ne h]

/-- Helper: reading an in-range written position through `getD` yields the
written value. -/
theorem getD_set_self {α : Type} {l : List α} {i : Nat} (h : i < l.length) (x d : α) :
    (l.set i x).getD i d = x := by
  simp [List.getD_eq_getElem?_getD, List.getElem?_set_self h]

/-- Helper: the boosted-key count computed inside `setTalent` over the `KEYS`
array equals the `boostedCount` of `BuilderPage.tsx`. -/
theorem keysFilter_eq_boostedCount (t : TalentUpsert) :
    (KEYS.filter (fun k2 => 0 < getBoost t k2)).length = boostedCount t := by
  simp only [KEYS, boostedCount, List.filter_cons, List.filter_nil, getBoost]
  split_ifs <;> simp

/-- Helper: `setTalentOp` rewritten with the `boostedCount` bridge. -/
theorem setTalentOp_eq (s : BuilderState) (i : Nat) (k : TalentKey) (v : Nat) :
    setTalentOp s i k v =
      (if boostedCount (setBoost (s.slots.getD i emptySlot).talent k v) > 3 then s
       else setSlot s i { talent := some (setBoost (s.slots.getD i emptySlot).talent k v) }) := by
  simp only [setTalentOp, keysFilter_eq_boostedCount]

/-- Helper: one `setTalent` mutation keeps every position of the slot array at
a boosted-count of at most 3, and never raises a count that was within the
cap. -/
theorem setTalentOp_preserves (s : BuilderState) (i : Nat) (k : TalentKey) (v : Nat)
    (idx0 : Nat) (h : boostedCount ((s.slots.getD idx0 emptySlot).talent) ≤ 3) :
    boostedCount (((setTalentOp s i k v).slots.getD idx0 emptySlot).talent) ≤ 3 := by
  rw [setTalentOp_eq]
  set tal := setBoost (s.slots.getD i emptySlot).talent k v with htal
  by_cases hb : boostedCount tal > 3
  · rw [if_pos hb]; exact h
  · rw [if_neg hb]
    by_cases hij : i = idx0
    · subst hij
      by_cases hlen : i < s.slots.length
      · have hr : (setSlot s i { talent := some tal }).slots.getD i emptySlot
            = mergeWithoutUndef (s.slots.getD i emptySlot) { talent := some tal } := by
          simp only [setSlot]
          exact getD_set_self hlen _ _
        rw [hr]
        have htal2 : (mergeWithoutUndef (s.slots.getD i emptySlot) { talent := some tal }).talent = tal := rfl
        rw [htal2]
        omega
      · have hslots : (setSlot s i { talent := some tal }).slots = s.slots := by
          simp only [setSlot]
          exact List.set_eq_of_length_le (by omega)
        rw [hslots]
        exact h
    · have hr : (setSlot s i { talent := some tal }).slots.getD idx0 emptySlot
          = s.slots.getD idx0 emptySlot := by
        simp only [setSlot]
        exact getD_set_ne hij _ _
      rw [hr]
      exact h

/-- C1: a talent-boost mutation through the `TalentsSection` `setTalent`
handler (the only talent write path, committed through the store `setSlot`) is
rejected with the whole state unchanged whenever the proposed talent record
would have more than 3 boosted entries; consequently no sequence of such
mutations can take a slot whose boosted count is within 0..3 to a count above
3. -/
theorem talent_cap_C1 :
    (∀ (s : BuilderState) (idx : Nat) (k : TalentKey) (v : Nat),
      3 < boostedCount (setBoost (s.slots.getD idx emptySlot).talent k v) →
      setTalentOp s idx k v = s) ∧
    (∀ (s : BuilderState) (muts : List (Nat × TalentKey × Nat)) (idx0 : Nat),
      boostedCount ((s.slots.getD idx0 emptySlot).talent) ≤ 3 →
      boostedCount (((muts.foldl (fun st m => setTalentOp st m.1 m.2.1 m.2.2) s).slots.getD
        idx0 emptySlot).talent) ≤ 3) := by
  constructor
  · intro s idx k v hover
    rw [setTalentOp_eq, if_pos hover]
  · intro s muts
    induction muts generalizing s with
    | nil => intro idx0 h; simpa using h
    | cons m rest ih =>
      intro idx0 h
      exact ih (setTalentOp s m.1 m.2.1 m.2.2) idx0 (setTalentOp_preserves s m.1 m.2.1 m.2.2 idx0 h)

/-- Witness for C1: a fourth boosted stat is rejected at a concrete
three-boost state, and a concrete mutation sequence stays within the cap. -/
theorem talent_cap_C1_witness :
    setTalentOp cappedState 0 TalentKey.mag_def_boost 10 = cappedState ∧
    boostedCount ((([((0 : Nat), TalentKey.phy_atk_boost, (9 : Nat)),
        ((0 : Nat), TalentKey.spd_boost, (10 : Nat))].foldl
        (fun st m => setTalentOp st m.1 m.2.1 m.2.2) cappedState).slots.getD 0 emptySlot).talent) ≤ 3 :=
  ⟨talent_cap_C1.1 cappedState 0 TalentKey.mag_def_boost 10 (by decide),
   talent_cap_C1.2 cappedState
     [((0 : Nat), TalentKey.phy_atk_boost, (9 : Nat)), ((0 : Nat), TalentKey.spd_boost, (10 : Nat))]
     0 (by decide)⟩

/-- Helper: an in-range `getD` read is the element. -/
theorem some_getD_of_lt {α : Type} {l : List α} {i : Nat} (h : i < l.length) (d : α) :
    some (l.getD i d) = l[i]? := by
  rw [List.getD_eq_getElem?_getD, List.getElem?_eq_getElem h]
  rfl

/-- Helper: every in-range mutation operation keeps the slot array at length
6. -/
theorem applyOp_slots_len (s : BuilderState) (op : BuilderOp) (hop : opInRange op)
    (h : s.slots.length = 6) : (applyOp s op).slots.length = 6 := by
  cases op with
  | opSetSlot idx p => simpa [applyOp, setSlot] using h
  | opClearSlot idx => simpa [applyOp, clearSlot, setSlot] using h
  | opMoveSlot f t =>
    obtain ⟨hf, ht⟩ := hop
    simpa [applyOp, moveSlot, hf, ht] using h
  | opLoadFromTeam team =>
    have hle : (((team.user_monsters.getD []).take 6).map loadSlot).length ≤ 6 := by
      simp [List.length_take]
    simp only [applyOp, loadFromTeam, List.length_append, List.length_replicate]
    omega
  | opReset => simp [applyOp, reset]

/-- C7: every roster reached from the initial state by in-range operations
(`setSlot`, the quick-delete `clearSlot`, `moveSlot`, `loadFromTeam`,
`reset`) has exactly 6 slots, and every slot carries exactly 4 move-id
positions with 0 denoting a missing selection. -/
theorem roster_shape_C7 (ops : List BuilderOp) (hops : ∀ op ∈ ops, opInRange op) :
    (ops.foldl applyOp initState).slots.length = 6 ∧
    ∀ sl ∈ (ops.foldl applyOp initState).slots, (slotMoves sl).length = 4 := by
  refine ⟨?_, fun sl _ => rfl⟩
  have hgen : ∀ (l : List BuilderOp) (s : BuilderState), (∀ op ∈ l, opInRange op) →
      s.slots.length = 6 → (l.foldl applyOp s).slots.length = 6 := by
    intro l
    induction l with
    | nil => intro s _ h; simpa using h
    | cons op rest ih =>
      intro s hl h
      exact ih (applyOp s op) (fun o ho => hl o (List.mem_cons_of_mem _ ho))
        (applyOp_slots_len s op (hl op (List.mem_cons_self _ _)) h)
  exact hgen ops initState hops (by simp [initState])

/-- Witness for C7: a concrete five-operation sequence. -/
theorem roster_shape_C7_witness :
    (sampleOps.foldl applyOp initState).slots.length = 6 ∧
    ∀ sl ∈ (sampleOps.foldl applyOp initState).slots, (slotMoves sl).length = 4 :=
  roster_shape_C7 sampleOps (by decide)

/-- C9: on a 6-slot roster with in-range indices, the (spec-modelled)
`moveSlot` exchanges the two full slot values, leaves every other slot and
all team-level fields unchanged, is a no-op on equal indices, and is an
involution. -/
theorem moveSlot_swap_C9 (s : BuilderState) (f t : Nat)
    (hlen : s.slots.length = 6) (hf : f < 6) (ht : t < 6) :
    (moveSlot s f t).slots.getD f emptySlot = s.slots.getD t emptySlot ∧
    (moveSlot s f t).slots.getD t emptySlot = s.slots.getD f emptySlot ∧
    (∀ j, j ≠ f → j ≠ t → (moveSlot s f t).slots.getD j emptySlot = s.slots.getD j emptySlot) ∧
    (moveSlot s f t).teamId = s.teamId ∧
    (moveSlot s f t).name = s.name ∧
    (moveSlot s f t).magic_item_id = s.magic_item_id ∧
    (moveSlot s f t).analysis = s.analysis ∧
    (moveSlot s f t).isAnalyzing = s.isAnalyzing ∧
    (f = t → moveSlot s f t = s) ∧
    moveSlot (moveSlot s f t) f t = s := by
  have hcond : f < 6 ∧ t < 6 := ⟨hf, ht⟩
  have hms : (moveSlot s f t).slots
      = (s.slots.set f (s.slots.getD t emptySlot)).set t (s.slots.getD f emptySlot) := by
    simp [moveSlot, hcond]
  have hmfields : (moveSlot s f t).teamId = s.teamId ∧ (moveSlot s f t).name = s.name ∧
      (moveSlot s f t).magic_item_id = s.magic_item_id ∧
      (moveSlot s f t).analysis = s.analysis ∧
      (moveSlot s f t).isAnalyzing = s.isAnalyzing := by
    simp [moveSlot, hcond]
  have hfl : f < s.slots.length := by omega
  have htl : t < s.slots.length := by omega
  have hgf : (moveSlot s f t).slots.getD f emptySlot = s.slots.getD t emptySlot := by
    rw [hms]
    by_cases hft : f = t
    · subst hft
      rw [getD_set_self (by simpa using hfl)]
    · rw [getD_set_ne (fun hh => hft hh.symm), getD_set_self hfl]
  have hgt : (moveSlot s f t).slots.getD t emptySlot = s.slots.getD f emptySlot := by
    rw [hms, getD_set_self (by simpa using htl)]
  have hgo : ∀ j, j ≠ f → j ≠ t →
      (moveSlot s f t).slots.getD j emptySlot = s.slots.getD j emptySlot := by
    intro j hjf hjt
    rw [hms, getD_set_ne (fun hh => hjt hh.symm), getD_set_ne (fun hh => hjf hh.symm)]
  have hslots_eq : ∀ (u : BuilderState), u.slots = s.slots →
      u.teamId = s.teamId → u.name = s.name → u.magic_item_id = s.magic_item_id →
      u.analysis = s.analysis → u.isAnalyzing = s.isAnalyzing → u = s := by
    intro u h1 h2 h3 h4 h5 h6
    cases u; cases s
    simp_all
  have hnoop : f = t → moveSlot s f t = s := by
    intro hft
    subst hft
    refine hslots_eq _ ?_ hmfields.1 hmfields.2.1 hmfields.2.2.1 hmfields.2.2.2.1 hmfields.2.2.2.2
    rw [hms, List.set_set]
    apply List.ext_getElem?
    intro j
    by_cases hj : j = f
    · subst hj
      rw [List.getElem?_set_self (by simpa using hfl)]
      exact some_getD_of_lt hfl _
    · rw [List.getElem?_set_ne (fun hh => hj hh.symm)]
  have hlen2 : (moveSlot s f t).slots.length = 6 := by
    rw [hms]; simpa using hlen
  have hinv : moveSlot (moveSlot s f t) f t = s := by
    have hms2 : (moveSlot (moveSlot s f t) f t).slots
        = ((moveSlot s f t).slots.set f ((moveSlot s f t).slots.getD t emptySlot)).set t
          ((moveSlot s f t).slots.getD f emptySlot) := by
      simp [moveSlot, hcond]
    refine hslots_eq _ ?_ ?_ ?_ ?_ ?_ ?_
    · rw [hms2, hgt, hgf]
      apply List.ext_getElem?
      intro j
      by_cases hjt : j = t
      · subst hjt
        rw [List.getElem?_set_self (by simp [hlen2]; omega)]
        exact some_getD_of_lt htl _
      · rw [List.getElem?_set_ne (fun hh => hjt hh.symm)]
        by_cases hjf : j = f
        · subst hjf
          rw [List.getElem?_set_self (by simp [hlen2]; omega)]
          exact some_getD_of_lt hfl _
        · rw [List.getElem?_set_ne (fun hh => hjf hh.symm), hms,
            List.getElem?_set_ne (fun hh => hjt hh.symm),
            List.getElem?_set_ne (fun hh => hjf hh.symm)]
    · rw [show (moveSlot (moveSlot s f t) f t).teamId = (moveSlot s f t).teamId by
        simp [moveSlot, hcond]]
      exact hmfields.1
    · rw [show (moveSlot (moveSlot s f t) f t).name = (moveSlot s f t).name by
        simp [moveSlot, hcond]]
      exact hmfields.2.1
    · rw [show (moveSlot (moveSlot s f t) f t).magic_item_id = (moveSlot s f t).magic_item_id by
        simp [moveSlot, hcond]]
      exact hmfields.2.2.1
    · rw [show (moveSlot (moveSlot s f t) f t).analysis = (moveSlot s f t).analysis by
        simp [moveSlot, hcond]]
      exact hmfields.2.2.2.1
    · rw [show (moveSlot (moveSlot s f t) f t).isAnalyzing = (moveSlot s f t).isAnalyzing by
        simp [moveSlot, hcond]]
      exact hmfields.2.2.2.2
  exact ⟨hgf, hgt, hgo, hmfields.1, hmfields.2.1, hmfields.2.2.1, hmfields.2.2.2.1,
    hmfields.2.2.2.2, hnoop, hinv⟩

/-- Witness for C9 at concrete indices 2 and 5 on a concrete roster. -/
theorem moveSlot_swap_C9_witness :
    (moveSlot fullState 2 5).slots.getD 5 emptySlot = fullState.slots.getD 2 emptySlot ∧
    moveSlot (moveSlot fullState 2 5) 2 5 = fullState := by
  have h := moveSlot_swap_C9 fullState 2 5 (by decide) (by decide) (by decide)
  exact ⟨h.2.1, h.2.2.2.2.2.2.2.2.2⟩

/-- C10: `setSlot(idx, patch)` with an in-range index changes only the slot at
`idx`; team-level fields and all other slots are untouched, and within the
touched slot every field absent from the patch (or explicitly `undefined`)
keeps its previous value while every present field, including an explicit 0
sentinel, is overwritten. -/
theorem setSlot_frame_C10 (s : BuilderState) (idx : Nat) (p : SlotPatch)
    (hidx : idx < s.slots.length) :
    (setSlot s idx p).teamId = s.teamId ∧
    (setSlot s idx p).name = s.name ∧
    (setSlot s idx p).magic_item_id = s.magic_item_id ∧
    (setSlot s idx p).analysis = s.analysis ∧
    (setSlot s idx p).isAnalyzing = s.isAnalyzing ∧
    (∀ j, j ≠ idx → (setSlot s idx p).slots.getD j emptySlot = s.slots.getD j emptySlot) ∧
    ((p.id = none → ((setSlot s idx p).slots.getD idx emptySlot).id = (s.slots.getD idx emptySlot).id) ∧
     (∀ v, p.id = some v → ((setSlot s idx p).slots.getD idx emptySlot).id = some v)) ∧
    ((p.monster_id = none → ((setSlot s idx p).slots.getD idx emptySlot).monster_id = (s.slots.getD idx emptySlot).monster_id) ∧
     (∀ v, p.monster_id = some v → ((setSlot s idx p).slots.getD idx emptySlot).monster_id = v)) ∧
    ((p.personality_id = none → ((setSlot s idx p).slots.getD idx emptySlot).personality_id = (s.slots.getD idx emptySlot).personality_id) ∧
     (∀ v, p.personality_id = some v → ((setSlot s idx p).slots.getD idx emptySlot).personality_id = v)) ∧
    ((p.legacy_type_id = none → ((setSlot s idx p).slots.getD idx emptySlot).legacy_type_id = (s.slots.getD idx emptySlot).legacy_type_id) ∧
     (∀ v, p.legacy_type_id = some v → ((setSlot s idx p).slots.getD idx emptySlot).legacy_type_id = v)) ∧
    ((p.move1_id = none → ((setSlot s idx p).slots.getD idx emptySlot).move1_id = (s.slots.getD idx emptySlot).move1_id) ∧
     (∀ v, p.move1_id = some v → ((setSlot s idx p).slots.getD idx emptySlot).move1_id = v)) ∧
    ((p.move2_id = none → ((setSlot s idx p).slots.getD idx emptySlot).move2_id = (s.slots.getD idx emptySlot).move2_id) ∧
     (∀ v, p.move2_id = some v → ((setSlot s idx p).slots.getD idx emptySlot).move2_id = v)) ∧
    ((p.move3_id = none → ((setSlot s idx p).slots.getD idx emptySlot).move3_id = (s.slots.getD idx emptySlot).move3_id) ∧
     (∀ v, p.move3_id = some v → ((setSlot s idx p).slots.getD idx emptySlot).move3_id = v)) ∧
    ((p.move4_id = none → ((setSlot s idx p).slots.getD idx emptySlot).move4_id = (s.slots.getD idx emptySlot).move4_id) ∧
     (∀ v, p.move4_id = some v → ((setSlot s idx p).slots.getD idx emptySlot).move4_id = v)) ∧
    ((p.talent = none → ((setSlot s idx p).slots.getD idx emptySlot).talent = (s.slots.getD idx emptySlot).talent) ∧
     (∀ v, p.talent = some v → ((setSlot s idx p).slots.getD idx emptySlot).talent = v)) := by
  have hnew : (setSlot s idx p).slots.getD idx emptySlot
      = mergeWithoutUndef (s.slots.getD idx emptySlot) p := by
    simp only [setSlot]
    exact getD_set_self hidx _ _
  refine ⟨rfl, rfl, rfl, rfl, rfl, ?_, ?_, ?_, ?_, ?_, ?_, ?_, ?_, ?_, ?_⟩
  · intro j hj
    simp only [setSlot]
    exact getD_set_ne (fun hh => hj hh.symm) _ _
  all_goals constructor
  all_goals rw [hnew]
  · intro h; simp [mergeWithoutUndef, h]
  · intro v h; simp [mergeWithoutUndef, h]
  · intro h; simp [mergeWithoutUndef, h]
  · intro v h; simp [mergeWithoutUndef, h]
  · intro h; simp [mergeWithoutUndef, h]
  · intro v h; simp [mergeWithoutUndef, h]
  · intro h; simp [mergeWithoutUndef, h]
  · intro v h; simp [mergeWithoutUndef, h]
  · intro h; simp [mergeWithoutUndef, h]
  · intro v h; simp [mergeWithoutUndef, h]
  · intro h; simp [mergeWithoutUndef, h]
  · intro v h; simp [mergeWithoutUndef, h]
  · intro h; simp [mergeWithoutUndef, h]
  · intro v h; simp [mergeWithoutUndef, h]
  · intro h; simp [mergeWithoutUndef, h]
  · intro v h; simp [mergeWithoutUndef, h]
  · intro h; simp [mergeWithoutUndef, h]
  · intro v h; simp [mergeWithoutUndef, h]

/-- Witness for C10: a concrete patch setting the creature and explicitly
clearing the second move at slot 0 of a concrete state. -/
theorem setSlot_frame_C10_witness :
    (setSlot fullState 0 { monster_id := some 9, move2_id := some 0 }).name = fullState.name ∧
    (setSlot fullState 0 { monster_id := some 9, move2_id := some 0 }).slots.getD 1 emptySlot
      = fullState.slots.getD 1 emptySlot ∧
    ((setSlot fullState 0 { monster_id := some 9, move2_id := some 0 }).slots.getD 0 emptySlot).monster_id = 9 ∧
    ((setSlot fullState 0 { monster_id := some 9, move2_id := some 0 }).slots.getD 0 emptySlot).move2_id = 0 ∧
    ((setSlot fullState 0 { monster_id := some 9, move2_id := some 0 }).slots.getD 0 emptySlot).move1_id
      = (fullState.slots.getD 0 emptySlot).move1_id := by
  have h := setSlot_frame_C10 fullState 0 { monster_id := some 9, move2_id := some 0 } (by decide)
  obtain ⟨h1, h2, h3, h4, h5, hframe, hid, hmon, hper, hleg, hm1, hm2, hm3, hm4, htal⟩ := h
  exact ⟨h2, hframe 1 (by decide), hmon.2 9 rfl, hm2.2 0 rfl, hm1.1 rfl⟩

/-- C8: `loadFromTeam` maps up to 6 saved records, in order, into positions
0..n-1 through the field-for-field copy `loadSlot`, and fills every remaining
position up to 6 with `emptySlot`.  No legacy-consistency repair runs:
position i is exactly the copied record, whatever its legacy fields. -/
theorem hydrate_order_C8 (s : BuilderState) (team : TeamOut)
    (hlen : (team.user_monsters.getD []).length ≤ 6) :
    (∀ (i : Nat) (um : UserMonsterOut), (team.user_monsters.getD [])[i]? = some um →
      (loadFromTeam s team).slots[i]? = some (loadSlot um)) ∧
    (∀ (i : Nat), (team.user_monsters.getD []).length ≤ i → i < 6 →
      (loadFromTeam s team).slots[i]? = some emptySlot) ∧
    (∀ um : UserMonsterOut,
      (loadSlot um).id = some um.id ∧ (loadSlot um).monster_id = um.monster_id ∧
      (loadSlot um).personality_id = um.personality_id ∧
      (loadSlot um).legacy_type_id = um.legacy_type_id ∧
      (loadSlot um).move1_id = um.move1_id ∧ (loadSlot um).move2_id = um.move2_id ∧
      (loadSlot um).move3_id = um.move3_id ∧ (loadSlot um).move4_id = um.move4_id ∧
      (loadSlot um).talent = um.talent) := by
  have hs : (loadFromTeam s team).slots
      = ((team.user_monsters.getD []).take 6).map loadSlot
        ++ List.replicate (6 - (((team.user_monsters.getD []).take 6).map loadSlot).length) emptySlot := rfl
  have h0 : (((team.user_monsters.getD []).take 6).map loadSlot).length
      = (team.user_monsters.getD []).length := by
    simp [List.length_take]
    omega
  refine ⟨?_, ?_, fun um => ⟨rfl, rfl, rfl, rfl, rfl, rfl, rfl, rfl, rfl⟩⟩
  · intro i um hum
    have hi : i < (team.user_monsters.getD []).length := by
      by_contra hc
      rw [List.getElem?_eq_none (by omega)] at hum
      exact absurd hum (by simp)
    rw [hs, List.getElem?_append_left (by omega), List.getElem?_map,
      List.getElem?_take_of_lt (by omega), hum]
    rfl
  · intro i hge hi6
    rw [hs, List.getElem?_append_right (by omega), List.getElem?_replicate,
      if_pos (by omega)]

/-- Witness for C8 at a concrete two-record team: record 0 lands in position
0 copied field-for-field, and position 3 is an empty slot. -/
theorem hydrate_order_C8_witness :
    (loadFromTeam initState sampleTeam).slots[0]? = some (loadSlot sampleUM) ∧
    (loadFromTeam initState sampleTeam).slots[3]? = some emptySlot := by
  have h := hydrate_order_C8 initState sampleTeam (by decide)
  exact ⟨h.1 0 sampleUM (by decide), h.2.1 3 (by decide) (by decide)⟩

/-- Helper: each move position after a legacy-type select is the original
move, cleared to 0 exactly when the stale-legacy test fires. -/
theorem getMove_legacyTypeSelect (byType : List (Nat × Nat)) (idSet : List Nat)
    (slot : UserMonsterCreate) (T : Nat) (n : Fin 4) :
    getMove (legacyTypeSelect byType idSet slot T) n
      = if shouldClear idSet (mapGet byType T) (getMove slot n) then 0 else getMove slot n := by
  by_cases c1 : shouldClear idSet (mapGet byType T) slot.move1_id <;>
  by_cases c2 : shouldClear idSet (mapGet byType T) slot.move2_id <;>
  by_cases c3 : shouldClear idSet (mapGet byType T) slot.move3_id <;>
  by_cases c4 : shouldClear idSet (mapGet byType T) slot.move4_id <;>
  fin_cases n <;>
  simp [legacyTypeSelect, handleLegacyChange, mergeWithoutUndef, getMove, c1, c2, c3, c4]

/-- Helper: the legacy-type select always ends with the new type id stored. -/
theorem legacyTypeSelect_type (byType : List (Nat × Nat)) (idSet : List Nat)
    (slot : UserMonsterCreate) (T : Nat) :
    (legacyTypeSelect byType idSet slot T).legacy_type_id = T := by
  unfold legacyTypeSelect
  dsimp only
  split <;> rfl

/-- C2: after the legacy-type select operation targeting type T, the chosen
type is T, every move slot still holding a member of the global legacy set
holds exactly the move granted by T, every move slot that held a legacy move
different from the granted one (including when T grants none) is cleared to
the 0 sentinel, and move slots holding non-legacy moves are unchanged. -/
theorem legacy_consistency_C2 (byType : List (Nat × Nat)) (idSet : List Nat)
    (slot : UserMonsterCreate) (T : Nat) :
    (legacyTypeSelect byType idSet slot T).legacy_type_id = T ∧
    (∀ n : Fin 4, getMove (legacyTypeSelect byType idSet slot T) n ≠ 0 →
      idSet.contains (getMove (legacyTypeSelect byType idSet slot T) n) = true →
      mapGet byType T = some (getMove (legacyTypeSelect byType idSet slot T) n)) ∧
    (∀ n : Fin 4, idSet.contains (getMove slot n) = true → getMove slot n ≠ 0 →
      mapGet byType T ≠ some (getMove slot n) →
      getMove (legacyTypeSelect byType idSet slot T) n = 0) ∧
    (∀ n : Fin 4, idSet.contains (getMove slot n) = false →
      getMove (legacyTypeSelect byType idSet slot T) n = getMove slot n) := by
  refine ⟨legacyTypeSelect_type byType idSet slot T, ?_, ?_, ?_⟩
  · intro n h0 hc
    rw [getMove_legacyTypeSelect] at h0 hc ⊢
    by_cases hsc : shouldClear idSet (mapGet byType T) (getMove slot n)
    · rw [if_pos hsc] at h0
      exact absurd rfl h0
    · rw [if_neg hsc] at h0 hc ⊢
      have hcm : getMove slot n ∈ idSet := by simpa using hc
      cases hall : mapGet byType T with
      | none =>
        exfalso
        rw [hall] at hsc
        exact hsc (by simp [shouldClear, h0, hcm])
      | some a =>
        rw [hall] at hsc
        have ha : getMove slot n = a := by
          by_contra hna
          exact hsc (by simp [shouldClear, h0, hcm, hna])
        rw [ha]
  · intro n hc h0 hne
    rw [getMove_legacyTypeSelect]
    have hcm : getMove slot n ∈ idSet := by simpa using hc
    have hsc : shouldClear idSet (mapGet byType T) (getMove slot n) = true := by
      cases hall : mapGet byType T with
      | none => simp [shouldClear, h0, hcm]
      | some a =>
        have hna : getMove slot n ≠ a := fun hh => hne (by rw [hall, hh])
        simp [shouldClear, h0, hcm, hna]
    rw [if_pos hsc]
  · intro n hcf
    rw [getMove_legacyTypeSelect]
    have hcm : getMove slot n ∉ idSet := by simpa using hcf
    have hsc : shouldClear idSet (mapGet byType T) (getMove slot n) = false := by
      cases mapGet byType T <;> simp [shouldClear, hcm]
    rw [if_neg (by simp [hsc])]

/-- Witness for C2: the spec scenario (legacy Fire=1 with its move 101 and a
non-legacy move 7; select Water=2 granting 102) clears 101, keeps 7, stores 2;
and a slot already holding the freshly granted move 102 keeps it. -/
theorem legacy_consistency_C2_witness :
    (legacyTypeSelect byTypeW idSetW slotC2 2).legacy_type_id = 2 ∧
    getMove (legacyTypeSelect byTypeW idSetW slotC2 2) 0 = 0 ∧
    getMove (legacyTypeSelect byTypeW idSetW slotC2 2) 1 = getMove slotC2 1 ∧
    mapGet byTypeW 2 = some (getMove (legacyTypeSelect byTypeW idSetW slotC2b 2) 0) :=
  ⟨(legacy_consistency_C2 byTypeW idSetW slotC2 2).1,
   (legacy_consistency_C2 byTypeW idSetW slotC2 2).2.2.1 0 (by decide) (by decide) (by decide),
   (legacy_consistency_C2 byTypeW idSetW slotC2 2).2.2.2 1 (by decide),
   (legacy_consistency_C2 byTypeW idSetW slotC2b 2).2.1 0 (by decide) (by decide)⟩

/-- Helper: searching the candidate list for a move that is among the legacy
values finds the legacy entry, which sits in the unshifted front section. -/
theorem find_candidate_legacy {l : List (Nat × Nat)} {rest : List (Nat × Bool)} {M : Nat}
    (h : M ∈ l.map (fun p => p.2)) :
    ((l.map (fun p => (p.2, true))) ++ rest).find? (fun c => c.1 == M) = some (M, true) := by
  induction l with
  | nil => simp at h
  | cons p tl ih =>
    by_cases hp : p.2 = M
    · rw [List.map_cons, List.cons_append, List.find?_cons_of_pos _ (by simp [hp]), hp]
    · have h2 : M ∈ tl.map (fun q => q.2) := by
        simp only [List.map_cons, List.mem_cons] at h
        rcases h with hh | hh
        · exact absurd hh.symm hp
        · exact hh
      rw [List.map_cons, List.cons_append, List.find?_cons_of_neg _ (by simp [hp])]
      exact ih h2

/-- Helper: when a filter returns a singleton, `find?` returns that element. -/
theorem find?_of_filter_singleton {α : Type} {l : List α} {p : α → Bool} {a : α}
    (h : l.filter p = [a]) : l.find? p = some a := by
  induction l with
  | nil => simp at h
  | cons x tl ih =>
    by_cases hx : p x
    · rw [List.filter_cons_of_pos hx] at h
      rw [List.find?_cons_of_pos _ hx]
      exact congrArg some (List.cons.inj h).1
    · rw [List.filter_cons_of_neg hx] at h
      rw [List.find?_cons_of_neg _ hx]
      exact ih h

/-- C3: picking a legacy move M granted by exactly one type T while the slot
has no legacy type chosen commits T and M in one patch: the resulting slot has
`legacy_type_id = T`, move position n holds M, and every other field is
unchanged — the pick is not rejected. -/
theorem legacy_pick_infers_type_C3 (movePool : List Nat) (legacyMap : List (Nat × Nat))
    (slot : UserMonsterCreate) (n : Fin 4) (M T : Nat)
    (hunset : slot.legacy_type_id = 0)
    (hone : legacyMap.filter (fun p => p.2 == M) = [(T, M)])
    (hT : T ≠ 0) (hM : M ≠ 0) :
    (onPick movePool legacyMap slot n M).legacy_type_id = T ∧
    getMove (onPick movePool legacyMap slot n M) n = M ∧
    (∀ m : Fin 4, m ≠ n → getMove (onPick movePool legacyMap slot n M) m = getMove slot m) ∧
    (onPick movePool legacyMap slot n M).monster_id = slot.monster_id ∧
    (onPick movePool legacyMap slot n M).personality_id = slot.personality_id ∧
    (onPick movePool legacyMap slot n M).talent = slot.talent ∧
    (onPick movePool legacyMap slot n M).id = slot.id := by
  have hTM : (T, M) ∈ legacyMap := by
    have : (T, M) ∈ legacyMap.filter (fun p => p.2 == M) := by
      rw [hone]
      exact List.mem_singleton_self _
    exact List.mem_of_mem_filter this
  have hmem : M ∈ legacyMap.map (fun p => p.2) := List.mem_map_of_mem _ hTM
  have hfind : (candidates movePool legacyMap slot.legacy_type_id).find? (fun c => c.1 == M)
      = some (M, true) := by
    rw [hunset]
    unfold candidates
    simp only [ne_eq, not_true_eq_false, if_false]
    exact find_candidate_legacy hmem
  have hrev : (legacyMap.find? (fun p => p.2 == M)).map (fun p => p.1) = some T := by
    rw [find?_of_filter_singleton hone]
    rfl
  have hO : onPick movePool legacyMap slot n M
      = mergeWithoutUndef slot (legacyPickPatch n M T) := by
    unfold onPick
    rw [if_neg hM, hfind]
    simp only [hunset, beq_self_eq_true, Bool.and_true]
    rw [hrev]
    simp only [hT, if_pos]
    simp [hT]
  refine ⟨?_, ?_, ?_, ?_, ?_, ?_, ?_⟩
  · rw [hO]; rfl
  · rw [hO]
    fin_cases n <;> simp [mergeWithoutUndef, legacyPickPatch, movePatch, getMove]
  · intro m hm
    rw [hO]
    fin_cases n <;> fin_cases m <;>
      simp_all [mergeWithoutUndef, legacyPickPatch, movePatch, getMove]
  · rw [hO]; fin_cases n <;> rfl
  · rw [hO]; fin_cases n <;> rfl
  · rw [hO]; fin_cases n <;> rfl
  · rw [hO]; fin_cases n <;> rfl

/-- Witness for C3: the spec scenario — an empty slot, map
`{Fire=1: 101, Water=2: 102}`, picking 101 into position 1 stores Fire and the
move. -/
theorem legacy_pick_infers_type_C3_witness :
    (onPick [7, 8] byTypeW emptySlot 0 101).legacy_type_id = 1 ∧
    getMove (onPick [7, 8] byTypeW emptySlot 0 101) 0 = 101 ∧
    getMove (onPick [7, 8] byTypeW emptySlot 0 101) 1 = getMove emptySlot 1 := by
  have h := legacy_pick_infers_type_C3 [7, 8] byTypeW emptySlot 0 101 1
    (by decide) (by decide) (by decide) (by decide)
  exact ⟨h.1, h.2.1, h.2.2.1 1 (by decide)⟩

/-- Helper: reading a move after `setNth`. -/
theorem getMove_setNth (slot : UserMonsterCreate) (n : Fin 4) (v : Nat) (m : Fin 4) :
    getMove (setNth slot n v) m = if m = n then v else getMove slot m := by
  fin_cases n <;> fin_cases m <;> simp [setNth, mergeWithoutUndef, movePatch, getMove]

/-- Helper: reading a move after the combined legacy-inference patch. -/
theorem getMove_legacyPickPatch (slot : UserMonsterCreate) (n : Fin 4) (v t : Nat) (m : Fin 4) :
    getMove (mergeWithoutUndef slot (legacyPickPatch n v t)) m
      = if m = n then v else getMove slot m := by
  fin_cases n <;> fin_cases m <;>
    simp [mergeWithoutUndef, legacyPickPatch, movePatch, getMove]

/-- Helper: every branch of `onPick` writes only move position n, to 0 or to
the picked id. -/
theorem onPick_moves (movePool : List Nat) (legacyMap : List (Nat × Nat))
    (slot : UserMonsterCreate) (n : Fin 4) (moveId : Nat) :
    (∀ m : Fin 4, m ≠ n → getMove (onPick movePool legacyMap slot n moveId) m = getMove slot m) ∧
    (getMove (onPick movePool legacyMap slot n moveId) n = 0 ∨
     getMove (onPick movePool legacyMap slot n moveId) n = moveId) := by
  unfold onPick
  split
  · constructor
    · intro m hm
      rw [getMove_setNth, if_neg hm]
    · rw [getMove_setNth, if_pos rfl]
      exact Or.inl rfl
  · split
    · constructor
      · intro m hm
        rw [getMove_setNth, if_neg hm]
      · rw [getMove_setNth, if_pos rfl]
        exact Or.inr rfl
    · split
      · split
        · split
          · constructor
            · intro m hm
              rw [getMove_legacyPickPatch, if_neg hm]
            · rw [getMove_legacyPickPatch, if_pos rfl]
              exact Or.inr rfl
          · constructor
            · intro m hm
              rw [getMove_setNth, if_neg hm]
            · rw [getMove_setNth, if_pos rfl]
              exact Or.inr rfl
        · constructor
          · intro m hm
            rw [getMove_setNth, if_neg hm]
          · rw [getMove_setNth, if_pos rfl]
            exact Or.inr rfl
      · constructor
        · intro m hm
          rw [getMove_setNth, if_neg hm]
        · rw [getMove_setNth, if_pos rfl]
          exact Or.inr rfl

/-- Helper: a set move id belongs to `selectedIds`. -/
theorem mem_selectedIds (slot : UserMonsterCreate) (j : Fin 4) (h : getMove slot j ≠ 0) :
    (selectedIds slot).contains (getMove slot j) = true := by
  fin_cases j <;> simp_all [selectedIds, getMove]

/-- C4 counterexample: the claim says a pick duplicating a move in another
slot is rejected with the slot unchanged and a DUPLICATE_MOVE error; but the
`onPick` handler, called with move 5 (already in position 1) for position 2,
installs the duplicate, and the store `setSlot` also accepts it — no code path
rejects or reports any error. -/
theorem duplicate_move_C4_counterexample :
    (onPick [5, 6] [] dupSlot 1 5 ≠ dupSlot ∧
     (onPick [5, 6] [] dupSlot 1 5).move1_id = 5 ∧
     (onPick [5, 6] [] dupSlot 1 5).move2_id = 5) ∧
    (setSlot dupState 0 { move2_id := some 5 } ≠ dupState ∧
     ((setSlot dupState 0 { move2_id := some 5 }).slots.getD 0 emptySlot).move1_id = 5 ∧
     ((setSlot dupState 0 { move2_id := some 5 }).slots.getD 0 emptySlot).move2_id = 5) := by
  decide

/-- C4 as amended: duplicate selection is prevented one step earlier, in the
UI — `canPick` is false for a move occupying a different slot, the option is
rendered disabled, and a click on a disabled option is ignored; no
DUPLICATE_MOVE error code exists.  Under this gated pick path no two of the
four move ids ever become equal while non-zero. -/
theorem duplicate_move_C4 (movePool : List Nat) (legacyMap : List (Nat × Nat))
    (slot : UserMonsterCreate) (n : Fin 4) (moveId : Nat) (isLegacy : Bool) :
    (moveId ≠ getMove slot n → (selectedIds slot).contains moveId = true →
      canPick legacyMap slot n moveId isLegacy = false) ∧
    (noDupMoves slot → noDupMoves (uiPick movePool legacyMap slot n moveId isLegacy)) := by
  constructor
  · intro hne hmem
    have hmem2 : moveId ∈ selectedIds slot := by simpa using hmem
    simp only [canPick]
    rw [if_pos (by simp [hne, hmem2])]
  · intro hnd
    unfold uiPick
    by_cases hcp : canPick legacyMap slot n moveId isLegacy = true
    · rw [if_pos hcp]
      have hkey : moveId = getMove slot n ∨ (selectedIds slot).contains moveId = false := by
        by_contra hcon
        push_neg at hcon
        obtain ⟨h1, h2⟩ := hcon
        have h2t : moveId ∈ selectedIds slot := by
          revert h2
          cases hcont : (selectedIds slot).contains moveId <;> simp
          exact (by simpa using hcont)
        have : canPick legacyMap slot n moveId isLegacy = false := by
          simp only [canPick]
          rw [if_pos (by simp [h1, h2t])]
        rw [this] at hcp
        exact absurd hcp (by simp)
      obtain ⟨hframe, hn⟩ := onPick_moves movePool legacyMap slot n moveId
      intro i j hij hi0
      by_cases hin : i = n
      · subst hin
        rcases hn with h | h
        · exact absurd h hi0
        · rw [h] at hi0 ⊢
          rw [hframe j (fun hh => hij hh.symm)]
          rcases hkey with hk | hk
          · rw [hk]
            exact hnd i j hij (hk ▸ hi0)
          · intro heq
            have hj0 : getMove slot j ≠ 0 := by
              rw [← heq]
              exact hi0
            have := mem_selectedIds slot j hj0
            rw [← heq] at this
            rw [this] at hk
            exact absurd hk (by simp)
      · rw [hframe i hin]
        have hi0s : getMove slot i ≠ 0 := by
          rwa [hframe i hin] at hi0
        by_cases hjn : j = n
        · subst hjn
          rcases hn with h | h
          · rw [h]
            exact hi0s
          · rw [h]
            rcases hkey with hk | hk
            · rw [hk]
              exact hnd i j hij hi0s
            · intro heq
              have := mem_selectedIds slot i hi0s
              rw [heq] at this
              rw [this] at hk
              exact absurd hk (by simp)
        · rw [hframe j hjn]
          exact hnd i j hij hi0s
    · rw [if_neg hcp]
      exact hnd

/-- Witness for C4 as amended: with move 5 in position 1, picking 5 for
position 2 is disabled, and a gated pick keeps the slot duplicate-free. -/
theorem duplicate_move_C4_witness :
    canPick [] dupSlot 1 5 false = false ∧
    noDupMoves (uiPick [5, 6] [] dupSlot 1 5 false) :=
  ⟨(duplicate_move_C4 [5, 6] [] dupSlot 1 5 false).1 (by decide) (by decide),
   (duplicate_move_C4 [5, 6] [] dupSlot 1 5 false).2 (by decide)⟩

end RocoTeamBuilder
